import Mathlib

/-!
Shallow embedding of the two scripts of NGEET/ed-misc-tools:

* `software-engineering/restart-compare.py` — a diagnostic that opens two
  NetCDF history files, diffs their metadata dictionaries, selects the
  time-indexed variables and compares their arrays time step by time step;
* `software-engineering/changeset-loop-runs.py` — a batch driver that, for a
  list of git changeset ids, clones a reference repository, checks the
  changeset out on a fresh branch, creates a model case or test and runs a
  configured list of follow-up commands, logging subprocess output.

Pure computations (dictionary diffing, variable selection, array
comparison, command-template substitution) are translated directly.
Effectful computations (subprocess calls, `os.chdir`, printing, the log
file) are modelled by an explicit event trace; a raised exception is the
`Option String` component carried next to the trace.  Numpy floating-point
values are modelled by exact rationals, matching the script's use of exact
(bit-reproducibility) equality.  Out-of-range indexing, which would raise
in python, is made total with a default value; every theorem that touches
indexing carries in-range hypotheses so the default is never reached.
-/

/-- Rank-indexed model of a numpy ndarray's contents: a rank-0 array is a
rational scalar, and a rank-`n+1` array is the list of its rank-`n`
subarrays along the first axis. -/
def NdData : Nat → Type
  | 0 => ℚ
  | n + 1 => List (NdData n)

instance ndDataDecEq : (n : Nat) → DecidableEq (NdData n)
  | 0 => inferInstanceAs (DecidableEq ℚ)
  | n + 1 =>
    letI := ndDataDecEq n
    inferInstanceAs (DecidableEq (List (NdData n)))

/-- Default element used to make out-of-range indexing total in the model;
python would raise an `IndexError` instead, and every theorem below
supplies in-range hypotheses so this value is never reached. -/
def NdData.dflt : (n : Nat) → NdData n
  | 0 => (0 : ℚ)
  | n + 1 => ([] : List (NdData n))

/-- A numpy array of arbitrary rank (the `.data` of a
`scipy.io.netcdf` variable).  Structural equality of two `NdArr`s models
`np.array_equal`, which is `False` on shape mismatch and exact element-wise
equality otherwise. -/
structure NdArr where
  rank : Nat
  data : NdData rank

instance : DecidableEq NdArr := fun a b =>
  match a, b with
  | ⟨m, x⟩, ⟨n, y⟩ =>
    if h : m = n then by
      subst h
      exact decidable_of_iff (x = y) (by simp [NdArr.mk.injEq])
    else isFalse (fun hc => h (congrArg NdArr.rank hc))

/-- Numpy indexing `a[i]` along the first axis (`base[index]` in
`compare_variables`).  Indexing a scalar, a python error, returns the
scalar unchanged; no theorem relies on that case. -/
def NdArr.idx : NdArr → Nat → NdArr
  | ⟨0, x⟩, _ => ⟨0, x⟩
  | ⟨n + 1, xs⟩, i => ⟨n, List.getD xs i (NdData.dflt n)⟩

/-- The scalar value of a rank-0 array (0 on a positive-rank array, a case
python would render differently and no claim exercises). -/
def NdArr.val : NdArr → ℚ
  | ⟨0, x⟩ => x
  | ⟨_ + 1, _⟩ => 0

/-- The subarrays along the first axis, in numpy iteration order
(`for index, time in enumerate(times)` iterates these). -/
def NdArr.rows : NdArr → List NdArr
  | ⟨0, _⟩ => []
  | ⟨n + 1, xs⟩ => List.map (fun x => ⟨n, x⟩) xs

/-- Rank-0 array from a scalar. -/
def nd0 (x : ℚ) : NdArr := ⟨0, x⟩

/-- Rank-1 array from a list of scalars. -/
def nd1 (xs : List ℚ) : NdArr := ⟨1, xs⟩

/-- Rank-2 array from a matrix. -/
def nd2 (xs : List (List ℚ)) : NdArr := ⟨2, xs⟩

/-- Rank-3 array. -/
def nd3 (xs : List (List (List ℚ))) : NdArr := ⟨3, xs⟩

/-- A netCDF variable as `restart-compare.py` sees it: its dimension-name
tuple and its data array. -/
structure NcVar where
  dimensions : List String
  data : NdArr
deriving DecidableEq

/-- A netCDF file handle's metadata and data: the `dimensions` mapping
(name to size) and the `variables` mapping (name to variable; `variables`
is a reserved word in Lean, hence the field name `vars`), both in the
file's own enumeration order. -/
structure Dataset where
  dimensions : List (String × Nat)
  vars : List (String × NcVar)

/-- Dictionary access `file.variables[name]`, `None` when the key is
absent (python raises `KeyError`; callers below model that error). -/
def lookupVar (ds : Dataset) (name : String) : Option NcVar :=
  (ds.vars.find? (fun p => p.1 = name)).map Prod.snd

/-- `get_time_vars`: the names of the variables of `base_file` whose
dimension tuple contains `'time'`, in the file's enumeration order. -/
def get_time_vars (base_file : Dataset) : List String :=
  base_file.vars.filterMap
    (fun p => if "time" ∈ p.2.dimensions then some p.1 else none)

/-- One of the three optional values of the mapping `diff_dict` returns:
a list of keys (`a_not_b`, `b_not_a`) or a mapping of keys to value pairs
(`different`). -/
inductive DiffVal (V : Type) where
  | keys (l : List String)
  | vals (l : List (String × V × V))
deriving DecidableEq

/-- The `a_not_b` list built by `diff_dict`'s first loop: the keys of `a`
that are not keys of `b`, in `a`'s iteration order. -/
def aNotB {V : Type} (a b : List (String × V)) : List String :=
  a.filterMap (fun p => if p.1 ∈ b.map Prod.fst then none else some p.1)

/-- The `different` mapping built by `diff_dict`'s first loop: keys present
in both mappings whose values (`a[key]`, `b[key]`) disagree, recorded only
when `compare_values` is set. -/
def differing {V : Type} [DecidableEq V] (a b : List (String × V))
    (compare_values : Bool) : List (String × V × V) :=
  a.filterMap (fun p =>
    if p.1 ∈ b.map Prod.fst then
      match a.lookup p.1, b.lookup p.1 with
      | some va, some vb =>
        if compare_values = true ∧ va ≠ vb then some (p.1, va, vb) else none
      | _, _ => none
    else none)

/-- `diff_dict`: the difference between two dictionaries, as the mapping
the python function returns — at most the three keys `a_not_b`, `b_not_a`
and `different`, each present only when its value is nonempty. -/
def diff_dict {V : Type} [DecidableEq V] (a b : List (String × V))
    (compare_values : Bool) : List (String × DiffVal V) :=
  (if aNotB a b ≠ [] then [("a_not_b", DiffVal.keys (aNotB a b))] else [])
    ++ (if aNotB b a ≠ [] then [("b_not_a", DiffVal.keys (aNotB b a))] else [])
    ++ (if differing a b compare_values ≠ [] then
          [("different", DiffVal.vals (differing a b compare_values))]
        else [])

/-- `check_stuff`: diff two mappings and, when the diff is nonempty, print
the given name together with the diff.  The printed report is returned;
`none` models printing nothing.  The function cannot raise. -/
def check_stuff {V : Type} [DecidableEq V] (name : String)
    (base rest : List (String × V)) (compare_values : Bool) :
    Option (String × List (String × DiffVal V)) :=
  if diff_dict base rest compare_values = [] then none
  else some (name, diff_dict base rest compare_values)

/-- `sanity_check`: report (never raise on) differences between the two
files' dimension mappings (values compared) and variable mappings (values
not compared). -/
def sanity_check (base_file restart_file : Dataset) :
    Option (String × List (String × DiffVal Nat))
      × Option (String × List (String × DiffVal NcVar)) :=
  (check_stuff "Dimensions" base_file.dimensions restart_file.dimensions true,
   check_stuff "Variables" base_file.vars restart_file.vars false)

/-- One differing grid point of a 3-dimensional variable at one time step,
as printed by `compare_variables`: the `np.where` coordinate pair and the
latitude/longitude values `lat[point[0]]`, `lon[point[1]]`. -/
structure PointEntry where
  point : Nat × Nat
  lat : ℚ
  lon : ℚ
deriving DecidableEq

/-- One differing time step of a variable: the time index, the time
coordinate value, and — only for variables with three dimensions — the
list of differing grid points. -/
structure TimeEntry where
  timeIndex : Nat
  timeValue : ℚ
  points : Option (List PointEntry)
deriving DecidableEq

/-- The report `compare_variables` prints for one differing variable. -/
structure VarReport where
  name : String
  dims : List String
  entries : List TimeEntry
deriving DecidableEq

/-- Column indices `j` with `row_a[j] - row_b[j] ≠ 0`, starting at column
`j0`: one row of `np.where(diff != 0)` for `diff = base_data - rest_data`. -/
def rowDiffIdx : Nat → List NdArr → List NdArr → List Nat
  | _, [], _ => []
  | _, _, [] => []
  | j, a :: as, b :: bs =>
    if a.val - b.val ≠ 0 then j :: rowDiffIdx (j + 1) as bs
    else rowDiffIdx (j + 1) as bs

/-- Row-major coordinates of the nonzero entries of the elementwise
difference of two 2-D slices, starting at row `i0`. -/
def diffPointsIdx : Nat → List NdArr → List NdArr → List (Nat × Nat)
  | _, [], _ => []
  | _, _, [] => []
  | i, ra :: as, rb :: bs =>
    (rowDiffIdx 0 ra.rows rb.rows).map (fun j => (i, j))
      ++ diffPointsIdx (i + 1) as bs

/-- `np.transpose(np.where(diff != 0))` for `diff = a - b` on two 2-D
slices: the row-major list of coordinates where the slices differ. -/
def diffPoints (a b : NdArr) : List (Nat × Nat) :=
  diffPointsIdx 0 a.rows b.rows

/-- The `for index, time in enumerate(times)` loop of `compare_variables`
for one variable whose full arrays differ: at every time step whose slices
`base[index]`, `rest[index]` differ, record the time step and — when the
variable has three dimensions (`is3`) — the differing points with their
latitude/longitude values. -/
def compareTimesFrom (lat lon : NdArr) (is3 : Bool) (base rest : NdArr) :
    Nat → List NdArr → List TimeEntry
  | _, [] => []
  | index, t :: ts =>
    (if base.idx index = rest.idx index then []
     else
       [{ timeIndex := index, timeValue := t.val,
          points :=
            if is3 then
              some ((diffPoints (base.idx index) (rest.idx index)).map
                (fun p =>
                  { point := p, lat := (lat.idx p.1).val,
                    lon := (lon.idx p.2).val }))
            else none }])
      ++ compareTimesFrom lat lon is3 base rest (index + 1) ts

/-- The body of `compare_variables`'s `for var in variables` loop for one
variable: look the variable up in both files (`KeyError` when absent —
the python lookup is not guarded), return no report when the arrays are
equal in full, and otherwise the per-time-step report. -/
def compareOneVar (base_file restart_file : Dataset) (times lat lon : NdArr)
    (var : String) : Except String (Option VarReport) :=
  match lookupVar base_file var with
  | none => Except.error ("KeyError: base-file " ++ var)
  | some bv =>
    match lookupVar restart_file var with
    | none => Except.error ("KeyError: restart-file " ++ var)
    | some rv =>
      if bv.data = rv.data then Except.ok none
      else
        Except.ok (some
          { name := var, dims := bv.dimensions,
            entries :=
              compareTimesFrom lat lon (decide (bv.dimensions.length = 3))
                bv.data rv.data 0 times.rows })

/-- `compare_variables`'s loop over the selected variable names; the first
raised `KeyError` aborts the whole run (python lets it propagate). -/
def compareVarsList (base_file restart_file : Dataset)
    (times lat lon : NdArr) : List String → Except String (List VarReport)
  | [] => Except.ok []
  | var :: rest =>
    match compareOneVar base_file restart_file times lat lon var with
    | Except.error e => Except.error e
    | Except.ok none => compareVarsList base_file restart_file times lat lon rest
    | Except.ok (some rep) =>
      match compareVarsList base_file restart_file times lat lon rest with
      | Except.error e => Except.error e
      | Except.ok reps => Except.ok (rep :: reps)

/-- `compare_variables`: fetch the `time`, `lat` and `lon` coordinate
arrays from the base file (an unguarded `KeyError` when absent), then
compare every selected variable.  The returned list holds one report per
variable whose arrays differ. -/
def compare_variables (var_names : List String)
    (base_file restart_file : Dataset) : Except String (List VarReport) :=
  match lookupVar base_file "time" with
  | none => Except.error ("KeyError: base-file " ++ "time")
  | some tv =>
    match lookupVar base_file "lat" with
    | none => Except.error ("KeyError: base-file " ++ "lat")
    | some latv =>
      match lookupVar base_file "lon" with
      | none => Except.error ("KeyError: base-file " ++ "lon")
      | some lonv =>
        compareVarsList base_file restart_file tv.data latv.data lonv.data
          var_names

/-- What `restart-compare.py`'s `main` computes after opening the two
files: the sanity-check reports (printed, never fatal), the time-variable
selection, and the variable comparison.  The three fields are computed in
this order; nothing in `sanity_check` can abort the run. -/
structure MainResult where
  sanity_dims : Option (String × List (String × DiffVal Nat))
  sanity_vars : Option (String × List (String × DiffVal NcVar))
  time_vars : List String
  comparison : Except String (List VarReport)

/-- `main` of `restart-compare.py` (file opening, which only reads the
two datasets, elided). -/
def restart_main (base_file restart_file : Dataset) : MainResult :=
  { sanity_dims := (sanity_check base_file restart_file).1,
    sanity_vars := (sanity_check base_file restart_file).2,
    time_vars := get_time_vars base_file,
    comparison :=
      compare_variables (get_time_vars base_file) base_file restart_file }

/-- Update one cell of a 3-D array: the array that agrees with `a` except
that cell `(t, i, j)` holds `v`.  Used to state the single-cell divergence
claims. -/
def set3 (a : List (List (List ℚ))) (t i j : Nat) (v : ℚ) :
    List (List (List ℚ)) :=
  a.set t ((a.getD t []).set i (((a.getD t []).getD i []).set j v))

/-- An observable effect of `changeset-loop-runs.py`: opening the run log
(with its mode string), writing subprocess output to it, `os.chdir`, a
`subprocess.check_output` call (list form or, for the follow-up commands,
the raw string the script passes with `shell=False`), and `print` of a
python list or of a string. -/
inductive Event where
  | openLog (name : String) (mode : String)
  | logWrite (s : String)
  | chdir (path : String)
  | subprocList (cmd : List String)
  | subprocStr (cmd : String)
  | printList (xs : List String)
  | printStr (s : String)
deriving DecidableEq

/-- Is the character one of the whitespace characters `str.split()` splits
on (those occurring in this script's strings). -/
def isPyWs (c : Char) : Bool :=
  c == ' ' || c == '\n' || c == '\t' || c == '\r'

/-- Character-list worker for python's `str.split()` with no argument:
`acc` holds the current word, reversed. -/
def pySplitAux : List Char → List Char → List String
  | acc, [] => if acc.isEmpty then [] else [String.mk acc.reverse]
  | acc, c :: cs =>
    if isPyWs c then
      if acc.isEmpty then pySplitAux [] cs
      else String.mk acc.reverse :: pySplitAux [] cs
    else pySplitAux (c :: acc) cs

/-- Python `str.split()` with no argument: split on runs of whitespace and
drop empty pieces. -/
def pySplit (s : String) : List String :=
  pySplitAux [] s.data

/-- Character-list worker for `string.Template.substitute` on the
`$\x7bname\x7d`-only templates this script uses: outside a placeholder the
accumulator is `none`; inside it is `some` of the key characters read so
far (reversed).  The first placeholder missing from the mapping raises
`KeyError` — exactly python's behaviour, which is how the `newcase`
template's `$\x7bCOMPILER\x7d`/`compiler` mismatch surfaces. -/
def substAux (m : List (String × String)) :
    Option (List Char) → List Char → Except String (List Char)
  | none, [] => Except.ok []
  | some _, [] => Except.error "ValueError: unterminated placeholder"
  | none, '$' :: '\x7b' :: rest => substAux m (some []) rest
  | none, c :: rest =>
    match substAux m none rest with
    | Except.error e => Except.error e
    | Except.ok tail => Except.ok (c :: tail)
  | some ks, '\x7d' :: rest =>
    match m.lookup (String.mk ks.reverse) with
    | none => Except.error ("KeyError: " ++ String.mk ks.reverse)
    | some v =>
      match substAux m none rest with
      | Except.error e => Except.error e
      | Except.ok tail => Except.ok (v.data ++ tail)
  | some ks, c :: rest => substAux m (some (c :: ks)) rest

/-- `Template(t).substitute(m)` for the braced-placeholder templates of
`changeset-loop-runs.py`. -/
def substTemplate (t : String) (m : List (String × String)) :
    Except String String :=
  match substAux m none t.data with
  | Except.error e => Except.error e
  | Except.ok cs => Except.ok (String.mk cs)

/-- Fuel-driven character-list worker for python's `str.replace` with a
nonempty pattern: replace left to right, non-overlapping.  The fuel is the
length of the remaining input, which suffices for a nonempty pattern. -/
def replaceAux (pat rep : List Char) : Nat → List Char → List Char
  | _, [] => []
  | 0, l => l
  | n + 1, l =>
    if pat.isPrefixOf l then rep ++ replaceAux pat rep n (l.drop pat.length)
    else
      match l with
      | [] => []
      | c :: cs => c :: replaceAux pat rep n cs

/-- `my_cmd.format(case_name=case_name)` for the follow-up command
templates: replace each `\x7bcase_name\x7d` by the case name (the only
format field the script uses). -/
def pyFormatCase (my_cmd case_name : String) : String :=
  String.mk (replaceAux ("\x7bcase_name\x7d".data) case_name.data
    my_cmd.data.length my_cmd.data)

/-- The `version_control` and `bisect_test` configuration values the
script reads with `config.get` (all strings, as in the ini file).
`run_test` models the key named `test`. -/
structure RunnerConfig where
  git_ref_repo : String
  branch_base : String
  changeset_ids : String
  bisect_type : String
  run_test : String
  resolution : String
  compset : String
  machine : String
  compiler : String
  test_mods : String
  test_commands : String
deriving DecidableEq

/-- `generate_id`: concatenate the branch base name and the changeset id. -/
def generate_id (basename changset_id : String) : String :=
  basename ++ "-" ++ changset_id

/-- `generate_newcase_command`: substitute the case parameters into the
`create_newcase` template and split the result on whitespace.  The
template references `$\x7bCOMPILER\x7d` while the mapping provides the key
`compiler`, so — as in the script — the substitution always raises
`KeyError: COMPILER`. -/
def generate_newcase_command (config : RunnerConfig) (case_name : String) :
    Except String (String × List String) :=
  let run_info := [("case_name", case_name),
                   ("resolution", config.resolution),
                   ("compset", config.compset),
                   ("machine", config.machine),
                   ("compiler", config.compiler)]
  match substTemplate
      ("\n    ./create_newcase -case $\x7bcase_name\x7d -res $\x7bresolution\x7d -compset $\x7bcompset\x7d -mach $\x7bmachine\x7d -compiler $\x7bCOMPILER\x7d\n    ")
      run_info with
  | Except.error e => Except.error e
  | Except.ok case => Except.ok (case_name, pySplit case)

/-- `generate_test_command`: build the test name from the case parameters,
substitute it into the `create_test` template, split on whitespace, and
return the `name.case_name` identifier together with the command. -/
def generate_test_command (config : RunnerConfig) (case_name : String) :
    Except String (String × List String) :=
  let run_info := [("case_name", case_name),
                   ("resolution", config.resolution),
                   ("compset", config.compset),
                   ("machine", config.machine),
                   ("compiler", config.compiler),
                   ("test_type", config.run_test),
                   ("test_mods", config.test_mods)]
  match substTemplate
      ("$\x7btest_type\x7d.$\x7bresolution\x7d.$\x7bcompset\x7d.$\x7bmachine\x7d_$\x7bcompiler\x7d.$\x7btest_mods\x7d")
      run_info with
  | Except.error e => Except.error e
  | Except.ok name =>
    match substTemplate
        ("\n    ./create_test -testname $\x7btestname\x7d -testid $\x7bcase_name\x7d\n    ")
        (run_info ++ [("testname", name)]) with
    | Except.error e => Except.error e
    | Except.ok case => Except.ok (name ++ "." ++ case_name, pySplit case)

/-- `bisect_test`: build the case or test command, print it, run it and log
its output unless `dry_run`, `os.chdir` into the case unless `dry_run`,
then for each whitespace-separated follow-up command substitute the case
name, print it, and run and log it unless `dry_run`.  The `runOut` and
`runOutS` oracles supply the output of a (successful) subprocess; a
template `KeyError` is returned as the raised error, with the events that
preceded it. -/
def bisect_test (config : RunnerConfig) (case_id : String) (dry_run : Bool)
    (runOut : List String → String) (runOutS : String → String) :
    List Event × Option String :=
  match (if config.bisect_type = "newcase" then
           generate_newcase_command config case_id
         else generate_test_command config case_id) with
  | Except.error e => ([], some e)
  | Except.ok (case_name, command) =>
    ([Event.printList command]
       ++ (if dry_run then []
           else [Event.subprocList command, Event.logWrite (runOut command)])
       ++ (if dry_run then [] else [Event.chdir case_name])
       ++ (pySplit config.test_commands).flatMap (fun my_cmd =>
            [Event.printStr (pyFormatCase my_cmd case_name)]
              ++ (if dry_run then []
                  else
                    [Event.subprocStr (pyFormatCase my_cmd case_name),
                     Event.logWrite
                       (runOutS (pyFormatCase my_cmd case_name))])),
     none)

/-- `clone_ref_repo`: print the clone announcement (a description, not the
command itself) and, unless `dry_run`, run `git clone`. -/
def clone_ref_repo (repo_dir temp_repo_dir : String) (dry_run : Bool) :
    List Event :=
  [Event.printStr
     ("Cloning git repo at : " ++ repo_dir ++ " to " ++ temp_repo_dir)]
    ++ (if dry_run then []
        else [Event.subprocList ["git", "clone", repo_dir, temp_repo_dir]])

/-- `checkout_git_branch`: unless `dry_run`, run
`git checkout -b branch_name changeset_id`.  Nothing is printed in either
mode. -/
def checkout_git_branch (changeset_id branch_name : String) (dry_run : Bool) :
    List Event :=
  if dry_run then []
  else [Event.subprocList ["git", "checkout", "-b", branch_name, changeset_id]]

/-- The `for changeset in changeset_ids` loop of the runner's `main`:
return to the start directory, refuse (raise) when the changeset's target
clone directory already exists — `isdir` is the state of the filesystem
when the run starts and `created` the directories cloned so far in this
run — then clone, check out, move into `cime/scripts` and run the test.
The returned trace holds the events performed before any raised error. -/
def runner_loop (config : RunnerConfig) (dry_run : Bool)
    (cwd repo_dir : String) (isdir : String → Bool)
    (runOut : List String → String) (runOutS : String → String) :
    List String → List String → List Event × Option String
  | _, [] => ([], none)
  | created, changeset :: rest =>
    if isdir (cwd ++ "/" ++ generate_id config.branch_base changeset) = true
        ∨ (cwd ++ "/" ++ generate_id config.branch_base changeset) ∈ created then
      ([Event.chdir cwd],
       some ("ERROR: temporary git repo dir already exists:\n    "
         ++ (cwd ++ "/" ++ generate_id config.branch_base changeset)))
    else
      ([Event.chdir cwd]
         ++ clone_ref_repo repo_dir
              (cwd ++ "/" ++ generate_id config.branch_base changeset) dry_run
         ++ (if dry_run then []
             else [Event.chdir
                     (cwd ++ "/" ++ generate_id config.branch_base changeset)])
         ++ checkout_git_branch changeset
              (generate_id config.branch_base changeset) dry_run
         ++ (if dry_run then []
             else [Event.chdir
                     (cwd ++ "/" ++ generate_id config.branch_base changeset
                        ++ "/cime/scripts")])
         ++ (bisect_test config (generate_id config.branch_base changeset)
               dry_run runOut runOutS).1
         ++ (match (bisect_test config
                      (generate_id config.branch_base changeset)
                      dry_run runOut runOutS).2 with
             | some _ => []
             | none =>
               (runner_loop config dry_run cwd repo_dir isdir runOut runOutS
                  (if dry_run then created
                   else (cwd ++ "/" ++ generate_id config.branch_base changeset)
                          :: created)
                  rest).1),
       match (bisect_test config (generate_id config.branch_base changeset)
                dry_run runOut runOutS).2 with
       | some e => some e
       | none =>
         (runner_loop config dry_run cwd repo_dir isdir runOut runOutS
            (if dry_run then created
             else (cwd ++ "/" ++ generate_id config.branch_base changeset)
                    :: created)
            rest).2)

/-- `main` of `changeset-loop-runs.py` after the configuration is read
(template writing and the missing-section check elided): print the
changeset id list, open the run log `<branch_base>.log` in mode `"w"`
(creating or truncating it), and process the changesets.  `cwd` is
`os.getcwd()`. -/
def runner_main (config : RunnerConfig) (dry_run : Bool) (cwd : String)
    (isdir : String → Bool) (runOut : List String → String)
    (runOutS : String → String) : List Event × Option String :=
  ([Event.printList (pySplit config.changeset_ids),
    Event.openLog (config.branch_base ++ ".log") "w"]
     ++ (runner_loop config dry_run cwd (cwd ++ "/" ++ config.git_ref_repo)
           isdir runOut runOutS [] (pySplit config.changeset_ids)).1,
   (runner_loop config dry_run cwd (cwd ++ "/" ++ config.git_ref_repo)
      isdir runOut runOutS [] (pySplit config.changeset_ids)).2)

/-- Is the event a `subprocess.check_output` invocation? -/
def isSubprocE : Event → Bool
  | Event.subprocList _ => true
  | Event.subprocStr _ => true
  | _ => false

/-- Is the event a `print`? -/
def isPrintE : Event → Bool
  | Event.printList _ => true
  | Event.printStr _ => true
  | _ => false

/-- Is the event the opening of the log file? -/
def isOpenLogE : Event → Bool
  | Event.openLog _ _ => true
  | _ => false

/-- The `print`ed events of a trace, in order. -/
def printsOf (t : List Event) : List Event := t.filter isPrintE

/-- Time coordinate of the 3-step example history file of the spec. -/
def exTimes : List ℚ := [0, 1, 2]

/-- Latitude coordinate of the 2x2 example grid. -/
def exLats : List ℚ := [10, 20]

/-- Longitude coordinate of the 2x2 example grid. -/
def exLons : List ℚ := [30, 40]

/-- The all-zero base array of shape 3x2x2 from the spec's example. -/
def exBase : List (List (List ℚ)) :=
  [[[0, 0], [0, 0]], [[0, 0], [0, 0]], [[0, 0], [0, 0]]]

/-- The example baseline history file: coordinates plus one 3-dimensional
time-indexed variable `TSOI`. -/
def exBaseFile : Dataset :=
  { dimensions := [("time", 3), ("lat", 2), ("lon", 2)],
    vars := [("time", { dimensions := ["time"], data := nd1 exTimes }),
             ("lat", { dimensions := ["lat"], data := nd1 exLats }),
             ("lon", { dimensions := ["lon"], data := nd1 exLons }),
             ("TSOI", { dimensions := ["time", "lat", "lon"],
                        data := nd3 exBase })] }

/-- The example restart history file: identical to `exBaseFile` except that
`TSOI[1][0][1]` is `1.0` instead of `0.0`. -/
def exRestFile : Dataset :=
  { dimensions := [("time", 3), ("lat", 2), ("lon", 2)],
    vars := [("time", { dimensions := ["time"], data := nd1 exTimes }),
             ("lat", { dimensions := ["lat"], data := nd1 exLats }),
             ("lon", { dimensions := ["lon"], data := nd1 exLons }),
             ("TSOI", { dimensions := ["time", "lat", "lon"],
                        data := nd3 (set3 exBase 1 0 1 (0 + 1)) })] }

/-- Base file for the missing-variable run: the coordinates plus a
time-indexed variable `FOO`. -/
def c2Base : Dataset :=
  { dimensions := [("time", 1)],
    vars := [("time", { dimensions := ["time"], data := nd1 [0] }),
             ("lat", { dimensions := ["lat"], data := nd1 [0] }),
             ("lon", { dimensions := ["lon"], data := nd1 [0] }),
             ("FOO", { dimensions := ["time"], data := nd1 [0] })] }

/-- Restart file for the missing-variable run: identical but without
`FOO`. -/
def c2Rest : Dataset :=
  { dimensions := [("time", 1)],
    vars := [("time", { dimensions := ["time"], data := nd1 [0] }),
             ("lat", { dimensions := ["lat"], data := nd1 [0] }),
             ("lon", { dimensions := ["lon"], data := nd1 [0] })] }

/-- A dataset none of whose variables carries a time dimension. -/
def c4NoTime : Dataset :=
  { dimensions := [("lat", 1)],
    vars := [("lat", { dimensions := ["lat"], data := nd1 [0] }),
             ("SLOPE", { dimensions := ["lat"], data := nd1 [4] })] }

/-- A pair of equal-data files for the cheap-path witness. -/
def c5Base : Dataset :=
  { dimensions := [("time", 2)],
    vars := [("time", { dimensions := ["time"], data := nd1 [0, 1] }),
             ("BAR", { dimensions := ["time"], data := nd1 [5, 6] })] }

/-- Restart file with the same `BAR` data as `c5Base`. -/
def c5Rest : Dataset :=
  { dimensions := [("time", 2)],
    vars := [("time", { dimensions := ["time"], data := nd1 [0, 1] }),
             ("BAR", { dimensions := ["time"], data := nd1 [5, 6] })] }

/-- A pair of files whose dimension mappings disagree, for the
non-fatal-sanity-check witness. -/
def c9Base : Dataset :=
  { dimensions := [("time", 3)],
    vars := [("time", { dimensions := ["time"], data := nd1 [0] })] }

/-- Restart file whose `time` dimension has a different size. -/
def c9Rest : Dataset :=
  { dimensions := [("time", 4)],
    vars := [("time", { dimensions := ["time"], data := nd1 [0] })] }

/-- A concrete runner configuration of `test` type with one changeset. -/
def cfg0 : RunnerConfig :=
  { git_ref_repo := "ed-clm-git", branch_base := "bb",
    changeset_ids := "abc", bisect_type := "test", run_test := "ERS",
    resolution := "f10", compset := "ICLM", machine := "mach",
    compiler := "gnu", test_mods := "mods",
    test_commands := "./case.submit" }

theorem ldGetD_set_self {α : Type} (l : List α) (n : Nat) (a d : α)
    (h : n < l.length) : (l.set n a).getD n d = a := by
  induction l generalizing n with
  | nil => simp at h
  | cons x xs ih =>
    cases n with
    | zero => rfl
    | succ n =>
      simp only [List.set_cons_succ, List.getD_cons_succ]
      exact ih n (by simpa using h)

theorem ldGetD_set_ne {α : Type} (l : List α) (m n : Nat) (a d : α)
    (h : m ≠ n) : (l.set m a).getD n d = l.getD n d := by
  induction l generalizing m n with
  | nil => simp [List.set]
  | cons x xs ih =>
    cases m with
    | zero =>
      cases n with
      | zero => exact absurd rfl h
      | succ n => simp [List.getD_cons_succ]
    | succ m =>
      cases n with
      | zero => simp
      | succ n =>
        simp only [List.set_cons_succ, List.getD_cons_succ]
        exact ih m n (fun hh => h (by rw [hh]))

theorem ldSet_ne_self {α : Type} (l : List α) (n : Nat) (a d : α)
    (h : n < l.length) (hne : a ≠ l.getD n d) : l.set n a ≠ l := by
  intro hc
  apply hne
  calc a = (l.set n a).getD n d := (ldGetD_set_self l n a d h).symm
    _ = l.getD n d := by rw [hc]

theorem ldGetD_map {α β : Type} (f : α → β) (l : List α) (i : Nat) (d : α) :
    (l.map f).getD i (f d) = f (l.getD i d) := by
  induction l generalizing i with
  | nil => rfl
  | cons x xs ih =>
    cases i with
    | zero => rfl
    | succ i => simp [List.getD_cons_succ, ih i]

theorem aNotB_self {V : Type} (a : List (String × V)) : aNotB a a = [] := by
  simp only [aNotB]
  refine List.filterMap_eq_nil_iff.mpr (fun p hp => ?_)
  simp [List.mem_map_of_mem Prod.fst hp]

theorem aNotB_mem {V : Type} (a b : List (String × V)) (k : String)
    (hk : k ∈ a.map Prod.fst) (hnk : k ∉ b.map Prod.fst) : k ∈ aNotB a b := by
  obtain ⟨p, hp, hpk⟩ := List.mem_map.mp hk
  refine List.mem_filterMap.mpr ⟨p, hp, ?_⟩
  rw [if_neg (by rw [hpk]; exact hnk), hpk]

theorem differing_self {V : Type} [DecidableEq V] (a : List (String × V))
    (cv : Bool) : differing a a cv = [] := by
  simp only [differing]
  refine List.filterMap_eq_nil_iff.mpr (fun p hp => ?_)
  rcases h : a.lookup p.1 with _ | va <;>
    simp [h, List.mem_map_of_mem Prod.fst hp]

theorem differing_false {V : Type} [DecidableEq V] (a b : List (String × V)) :
    differing a b false = [] := by
  simp only [differing]
  refine List.filterMap_eq_nil_iff.mpr (fun p hp => ?_)
  by_cases hmem : p.1 ∈ b.map Prod.fst
  · rcases a.lookup p.1 with _ | va <;> rcases b.lookup p.1 with _ | vb <;>
      simp [hmem]
  · simp [hmem]

/-- Claim C3: the metadata diff places every key of `a` missing from `b` in
the `a_not_b` list and every key of `b` missing from `a` in the `b_not_a`
list; its result contains at most the keys `a_not_b`, `b_not_a` and
`different`; and diffing any mapping against itself yields the empty
mapping. -/
theorem c3_diff_dict_detection {V : Type} [DecidableEq V]
    (a b : List (String × V)) (cv : Bool) :
    (∀ k, k ∈ a.map Prod.fst → k ∉ b.map Prod.fst →
      ∃ l, ("a_not_b", DiffVal.keys l) ∈ diff_dict a b cv ∧ k ∈ l)
    ∧ (∀ k, k ∈ b.map Prod.fst → k ∉ a.map Prod.fst →
      ∃ l, ("b_not_a", DiffVal.keys l) ∈ diff_dict a b cv ∧ k ∈ l)
    ∧ (∀ e ∈ diff_dict a b cv,
      e.1 = "a_not_b" ∨ e.1 = "b_not_a" ∨ e.1 = "different")
    ∧ diff_dict a a cv = [] := by
  refine ⟨fun k hk hnk => ?_, fun k hk hnk => ?_, fun e he => ?_, ?_⟩
  · refine ⟨aNotB a b, ?_, aNotB_mem a b k hk hnk⟩
    have hne : aNotB a b ≠ [] :=
      List.ne_nil_of_mem (aNotB_mem a b k hk hnk)
    simp [diff_dict, hne]
  · refine ⟨aNotB b a, ?_, aNotB_mem b a k hk hnk⟩
    have hne : aNotB b a ≠ [] :=
      List.ne_nil_of_mem (aNotB_mem b a k hk hnk)
    simp [diff_dict, hne]
  · simp only [diff_dict, List.mem_append] at he
    rcases he with (h | h) | h <;> split at h <;> simp_all
  · simp [diff_dict, aNotB_self, differing_self]

/-- Witness for C3: a concrete mapping diffed against itself yields the
empty mapping. -/
theorem c3_witness :
    diff_dict [("x", (1 : Nat))] [("x", (1 : Nat))] true = [] :=
  (c3_diff_dict_detection [("x", (1 : Nat))] [("x", (1 : Nat))] true).2.2.2

/-- Claim C6: with value comparison disabled the metadata diff never
contains the `different` entry, whatever the two mappings hold. -/
theorem c6_no_different_when_disabled {V : Type} [DecidableEq V]
    (a b : List (String × V)) :
    "different" ∉ (diff_dict a b false).map Prod.fst := by
  intro h
  simp only [diff_dict, differing_false, ne_eq, not_true_eq_false, if_neg,
    List.map_append, List.mem_append] at h
  rcases h with h | h <;> split at h <;> simp_all

/-- Witness for C6: two mappings that disagree on the value of their
shared key, diffed with value comparison disabled. -/
theorem c6_witness :
    "different" ∉ (diff_dict [("k", (1 : Nat))] [("k", (2 : Nat))] false).map
      Prod.fst :=
  c6_no_different_when_disabled [("k", (1 : Nat))] [("k", (2 : Nat))]

theorem get_time_vars_mem_iff (d : Dataset) (var : String) :
    var ∈ get_time_vars d
      ↔ ∃ v, (var, v) ∈ d.vars ∧ "time" ∈ v.dimensions := by
  simp only [get_time_vars, List.mem_filterMap]
  constructor
  · rintro ⟨p, hp, hf⟩
    by_cases h : "time" ∈ p.2.dimensions
    · rw [if_pos h] at hf
      obtain ⟨k, v⟩ := p
      cases hf
      exact ⟨v, hp, h⟩
    · rw [if_neg h] at hf
      cases hf
  · rintro ⟨v, hv, ht⟩
    exact ⟨(var, v), hv, by simp [ht]⟩

theorem get_time_vars_sublist (d : Dataset) :
    (get_time_vars d).Sublist (d.vars.map Prod.fst) := by
  simp only [get_time_vars]
  induction d.vars with
  | nil => simp
  | cons p ps ih =>
    by_cases h : "time" ∈ p.2.dimensions
    · simpa [h] using ih.cons₂ p.1
    · simpa [h] using ih.cons p.1

theorem get_time_vars_nil (d : Dataset)
    (h : ∀ p ∈ d.vars, "time" ∉ p.2.dimensions) : get_time_vars d = [] := by
  simp only [get_time_vars]
  exact List.filterMap_eq_nil_iff.mpr (fun p hp => by simp [h p hp])

/-- Claim C4: time-series variable selection returns exactly the names of
the variables whose dimension tuple contains `time`, as a sublist of the
dataset's own enumeration order (no re-sorting), and returns the empty
list when no variable declares a time dimension. -/
theorem c4_time_var_selection (d : Dataset) :
    (∀ var, var ∈ get_time_vars d
      ↔ ∃ v, (var, v) ∈ d.vars ∧ "time" ∈ v.dimensions)
    ∧ (get_time_vars d).Sublist (d.vars.map Prod.fst)
    ∧ ((∀ p ∈ d.vars, "time" ∉ p.2.dimensions) → get_time_vars d = []) :=
  ⟨fun var => get_time_vars_mem_iff d var, get_time_vars_sublist d,
   get_time_vars_nil d⟩

/-- Witness for C4: on a concrete dataset with no time-indexed variable
the selection is empty. -/
theorem c4_witness : get_time_vars c4NoTime = [] :=
  (c4_time_var_selection c4NoTime).2.2 (by decide)

/-- Claim C5: a time-indexed variable whose base and restart arrays are
equal in full produces no divergence report; `compareOneVar` returns on
the equality test without entering the per-time-step loop
(`compareTimesFrom` is only reached in the other branch). -/
theorem c5_equal_arrays_no_output (base_file restart_file : Dataset)
    (times lat lon : NdArr) (var : String) (bv rv : NcVar)
    (_hvar : var ∈ get_time_vars base_file)
    (hb : lookupVar base_file var = some bv)
    (hr : lookupVar restart_file var = some rv)
    (heq : bv.data = rv.data) :
    compareOneVar base_file restart_file times lat lon var = Except.ok none := by
  simp [compareOneVar, hb, hr, heq]

/-- Witness for C5: the variable `BAR` of the concrete equal-data pair. -/
theorem c5_witness :
    compareOneVar c5Base c5Rest (nd1 [0, 1]) (nd1 [0]) (nd1 [0]) "BAR"
      = Except.ok none :=
  c5_equal_arrays_no_output c5Base c5Rest (nd1 [0, 1]) (nd1 [0]) (nd1 [0])
    "BAR" { dimensions := ["time"], data := nd1 [5, 6] }
    { dimensions := ["time"], data := nd1 [5, 6] }
    (by decide) (by decide) (by decide) rfl

/-- Claim C9: when the two files' dimension mappings disagree the sanity
check reports the difference but is not fatal — `main` still performs the
time-variable selection and the variable comparison with their usual
results. -/
theorem c9_sanity_nonfatal (base_file restart_file : Dataset)
    (hdiff : diff_dict base_file.dimensions restart_file.dimensions true ≠ []) :
    (restart_main base_file restart_file).sanity_dims
        = some ("Dimensions",
            diff_dict base_file.dimensions restart_file.dimensions true)
      ∧ (restart_main base_file restart_file).time_vars
        = get_time_vars base_file
      ∧ (restart_main base_file restart_file).comparison
        = compare_variables (get_time_vars base_file) base_file restart_file := by
  refine ⟨?_, rfl, rfl⟩
  simp [restart_main, sanity_check, check_stuff, hdiff]

/-- Witness for C9: two concrete files whose `time` dimension sizes
disagree. -/
theorem c9_witness :
    (restart_main c9Base c9Rest).sanity_dims
        = some ("Dimensions", diff_dict c9Base.dimensions c9Rest.dimensions true)
      ∧ (restart_main c9Base c9Rest).time_vars = get_time_vars c9Base
      ∧ (restart_main c9Base c9Rest).comparison
        = compare_variables (get_time_vars c9Base) c9Base c9Rest :=
  c9_sanity_nonfatal c9Base c9Rest (by decide)

theorem nd3_idx (c : List (List (List ℚ))) (i : Nat) :
    (nd3 c).idx i = nd2 (c.getD i []) := rfl

theorem nd2_rows (m : List (List ℚ)) : (nd2 m).rows = m.map nd1 := rfl

theorem nd1_rows (r : List ℚ) : (nd1 r).rows = r.map nd0 := rfl

theorem nd1_idx_val (r : List ℚ) (i : Nat) :
    ((nd1 r).idx i).val = r.getD i 0 := rfl

theorem nd0_val (x : ℚ) : (nd0 x).val = x := rfl

theorem nd2_inj {m m' : List (List ℚ)} : nd2 m = nd2 m' ↔ m = m' := by
  simp [nd2, NdArr.mk.injEq]

theorem nd3_inj {c c' : List (List (List ℚ))} : nd3 c = nd3 c' ↔ c = c' := by
  simp [nd3, NdArr.mk.injEq]

theorem rowDiffIdx_self (xs : List NdArr) : ∀ j, rowDiffIdx j xs xs = [] := by
  induction xs with
  | nil => intro j; rfl
  | cons a as ih => intro j; simp [rowDiffIdx, ih]

theorem rowDiffIdx_map_set (r : List ℚ) :
    ∀ (j0 k : Nat) (v : ℚ), j0 < r.length → v ≠ r.getD j0 0 →
      rowDiffIdx k (r.map nd0) ((r.set j0 v).map nd0) = [k + j0] := by
  induction r with
  | nil => intro j0 k v h; simp at h
  | cons x xs ih =>
    intro j0 k v h hne
    cases j0 with
    | zero =>
      have hxv : x - v ≠ 0 := sub_ne_zero.mpr (fun hh => hne (by simp [hh.symm]))
      simp [rowDiffIdx, nd0, NdArr.val, hxv, rowDiffIdx_self]
    | succ j =>
      simp only [List.set_cons_succ, List.map_cons]
      have := ih j (k + 1) v (by simpa using h)
        (by simpa [List.getD_cons_succ] using hne)
      simp only [rowDiffIdx, nd0, NdArr.val, sub_self, ne_eq,
        not_true_eq_false, if_neg, ite_false]
      rw [this]
      congr 1
      omega

theorem diffPointsIdx_self (xs : List NdArr) : ∀ i, diffPointsIdx i xs xs = [] := by
  induction xs with
  | nil => intro i; rfl
  | cons a as ih => intro i; simp [diffPointsIdx, rowDiffIdx_self, ih]

theorem diffPointsIdx_map_set (m : List (List ℚ)) :
    ∀ (i0 k j0 : Nat) (v : ℚ),
      i0 < m.length → j0 < (m.getD i0 []).length →
      v ≠ (m.getD i0 []).getD j0 0 →
      diffPointsIdx k (m.map nd1)
          ((m.set i0 ((m.getD i0 []).set j0 v)).map nd1)
        = [(k + i0, j0)] := by
  induction m with
  | nil => intro i0 _ _ _ h; simp at h
  | cons row rows ih =>
    intro i0 k j0 v hi hj hv
    cases i0 with
    | zero =>
      simp only [List.getD_cons_zero] at hj hv ⊢
      simp only [List.set, List.map_cons]
      simp only [diffPointsIdx, nd1_rows]
      rw [rowDiffIdx_map_set row j0 0 v hj hv]
      simp [diffPointsIdx_self]
    | succ i =>
      simp only [List.getD_cons_succ] at hj hv ⊢
      simp only [List.set_cons_succ, List.map_cons]
      simp only [diffPointsIdx, rowDiffIdx_self]
      rw [ih i (k + 1) j0 v (by simpa using hi) hj hv]
      simp only [List.map_nil, List.nil_append]
      congr 2
      omega

theorem compareTimesFrom_nil_of_eq (lat lon : NdArr) (is3 : Bool)
    (B R : NdArr) :
    ∀ (ts : List NdArr) (k : Nat), (∀ t, k ≤ t → B.idx t = R.idx t) →
      compareTimesFrom lat lon is3 B R k ts = [] := by
  intro ts
  induction ts with
  | nil => intro k _; rfl
  | cons t ts ih =>
    intro k h
    rw [compareTimesFrom, if_pos (h k le_rfl), List.nil_append]
    exact ih (k + 1) (fun t ht => h t (by omega))

theorem compareTimesFrom_single (lat lon : NdArr) (B R : NdArr) (t0 : Nat)
    (hOff : ∀ t, t ≠ t0 → B.idx t = R.idx t) (hAt : B.idx t0 ≠ R.idx t0) :
    ∀ (ts : List NdArr) (k : Nat), k ≤ t0 → t0 < k + ts.length →
      compareTimesFrom lat lon true B R k ts
        = [{ timeIndex := t0, timeValue := (ts.getD (t0 - k) (nd0 0)).val,
             points := some ((diffPoints (B.idx t0) (R.idx t0)).map (fun p =>
               { point := p, lat := (lat.idx p.1).val,
                 lon := (lon.idx p.2).val })) }] := by
  intro ts
  induction ts with
  | nil => intro k h1 h2; simp at h2; omega
  | cons t ts ih =>
    intro k h1 h2
    by_cases hk : k = t0
    · subst hk
      rw [compareTimesFrom, if_neg hAt]
      rw [compareTimesFrom_nil_of_eq lat lon true B R ts (k + 1)
        (fun t ht => hOff t (by omega))]
      simp
    · rw [compareTimesFrom, if_pos (hOff k hk), List.nil_append]
      rw [ih (k + 1) (by omega) (by simp at h2 ⊢; omega)]
      have harith : t0 - k = (t0 - (k + 1)) + 1 := by omega
      rw [harith, List.getD_cons_succ]

/-- Claim C1: when the restart array equals the base array except that one
in-range cell `(t0, i0, j0)` of a 3-dimensional time-indexed variable is
offset by a nonzero difference `d`, the comparison reports exactly one
differing time step — index `t0` with its time coordinate — and exactly
one differing coordinate `(i0, j0)`, mapped to the latitude obtained by
indexing the `lat` array with the first spatial index and the longitude
obtained by indexing the `lon` array with the second.  (The spec's 3x2x2
example is this statement at `t0 = 1`, `(i0, j0) = (0, 1)`, `d = 1`; see
the witness.) -/
theorem c1_single_cell_divergence (base_file restart_file : Dataset)
    (var : String) (times lats lons : List ℚ)
    (base : List (List (List ℚ))) (dims dimsR : List String)
    (t0 i0 j0 : Nat) (d : ℚ)
    (hb : lookupVar base_file var
      = some { dimensions := dims, data := nd3 base })
    (hdims : dims.length = 3)
    (hr : lookupVar restart_file var
      = some { dimensions := dimsR,
               data := nd3 (set3 base t0 i0 j0
                 (((base.getD t0 []).getD i0 []).getD j0 0 + d)) })
    (hd : d ≠ 0)
    (ht0 : t0 < times.length) (htb : t0 < base.length)
    (hi0 : i0 < (base.getD t0 []).length)
    (hj0 : j0 < ((base.getD t0 []).getD i0 []).length)
    (_hlat : i0 < lats.length) (_hlon : j0 < lons.length) :
    compareOneVar base_file restart_file (nd1 times) (nd1 lats) (nd1 lons) var
      = Except.ok (some
          { name := var, dims := dims,
            entries := [{ timeIndex := t0, timeValue := times.getD t0 0,
                          points := some [{ point := (i0, j0),
                                            lat := lats.getD i0 0,
                                            lon := lons.getD j0 0 }] }] }) := by
  have hvne : ((base.getD t0 []).getD i0 []).getD j0 0 + d
      ≠ ((base.getD t0 []).getD i0 []).getD j0 0 := by
    intro hc
    exact hd (by linarith)
  have hrowne : ((base.getD t0 []).getD i0 []).set j0
      (((base.getD t0 []).getD i0 []).getD j0 0 + d)
      ≠ (base.getD t0 []).getD i0 [] :=
    ldSet_ne_self _ j0 _ 0 hj0 hvne
  have hslicene : (base.getD t0 []).set i0
      (((base.getD t0 []).getD i0 []).set j0
        (((base.getD t0 []).getD i0 []).getD j0 0 + d))
      ≠ base.getD t0 [] :=
    ldSet_ne_self _ i0 _ [] hi0 hrowne
  have hdata : set3 base t0 i0 j0
      (((base.getD t0 []).getD i0 []).getD j0 0 + d) ≠ base :=
    ldSet_ne_self _ t0 _ [] htb hslicene
  have hOff : ∀ t, t ≠ t0 →
      (nd3 base).idx t
        = (nd3 (set3 base t0 i0 j0
            (((base.getD t0 []).getD i0 []).getD j0 0 + d))).idx t := by
    intro t ht
    rw [nd3_idx, nd3_idx]
    unfold set3
    rw [ldGetD_set_ne base t0 t _ [] (fun hh => ht hh.symm)]
  have hslice : (set3 base t0 i0 j0
      (((base.getD t0 []).getD i0 []).getD j0 0 + d)).getD t0 []
      = (base.getD t0 []).set i0
          (((base.getD t0 []).getD i0 []).set j0
            (((base.getD t0 []).getD i0 []).getD j0 0 + d)) := by
    unfold set3
    exact ldGetD_set_self base t0 _ [] htb
  have hAt : (nd3 base).idx t0
      ≠ (nd3 (set3 base t0 i0 j0
          (((base.getD t0 []).getD i0 []).getD j0 0 + d))).idx t0 := by
    rw [nd3_idx, nd3_idx, hslice]
    intro hc
    exact hslicene (nd2_inj.mp hc).symm
  have hpoints : diffPoints ((nd3 base).idx t0)
      ((nd3 (set3 base t0 i0 j0
        (((base.getD t0 []).getD i0 []).getD j0 0 + d))).idx t0)
      = [(i0, j0)] := by
    rw [nd3_idx, nd3_idx, hslice]
    unfold diffPoints
    rw [nd2_rows, nd2_rows]
    simpa using
      diffPointsIdx_map_set (base.getD t0 []) i0 0 j0 _ hi0 hj0 hvne
  have h3 : decide (dims.length = 3) = true := by simp [hdims]
  simp only [compareOneVar, hb, hr]
  rw [if_neg (fun hc => hdata ((nd3_inj.mp hc).symm)), h3, nd1_rows]
  rw [compareTimesFrom_single (nd1 lats) (nd1 lons) _ _ t0 hOff hAt
    (times.map nd0) 0 (by omega) (by simpa using ht0)]
  rw [hpoints]
  simp only [Nat.sub_zero, ldGetD_map nd0 times t0 0, nd0_val, List.map_cons,
    List.map_nil, nd1_idx_val]

/-- Witness for C1: the spec's example — a 3x2x2 all-zero base array and a
restart array with `1.0` at index `[1, 0, 1]` — yields a report flagging
exactly time index 1 and exactly the coordinate `(0, 1)`, mapped to
`lat[0] = 10` and `lon[1] = 40`, the restart value exceeding the base
value by the difference `1.0`. -/
theorem c1_witness :
    compareOneVar exBaseFile exRestFile (nd1 exTimes) (nd1 exLats) (nd1 exLons)
        "TSOI"
      = Except.ok (some
          { name := "TSOI", dims := ["time", "lat", "lon"],
            entries := [{ timeIndex := 1, timeValue := 1,
                          points := some [{ point := (0, 1), lat := 10,
                                            lon := 40 }] }] }) :=
  c1_single_cell_divergence exBaseFile exRestFile "TSOI" exTimes exLats exLons
    exBase ["time", "lat", "lon"] ["time", "lat", "lon"] 1 0 1 1
    rfl rfl rfl (by norm_num) (by decide) (by decide) (by decide) (by decide)
    (by decide) (by decide)

theorem time_vars_lookup_isSome (d : Dataset) :
    ∀ x ∈ get_time_vars d, (lookupVar d x).isSome = true := by
  intro x hx
  obtain ⟨v, hv, -⟩ := (get_time_vars_mem_iff d x).mp hx
  unfold lookupVar
  have hsome : (List.find? (fun p => decide (p.1 = x)) d.vars).isSome = true :=
    List.find?_isSome.mpr ⟨(x, v), hv, decide_eq_true rfl⟩
  obtain ⟨y, hy⟩ := Option.isSome_iff_exists.mp hsome
  rw [hy]
  rfl

theorem compareVarsList_first_missing (base_file restart_file : Dataset)
    (times lat lon : NdArr) :
    ∀ (l : List String),
      (∀ x ∈ l, (lookupVar base_file x).isSome = true) →
      ∀ w : String,
        l.find? (fun v => (lookupVar restart_file v).isNone) = some w →
        compareVarsList base_file restart_file times lat lon l
          = Except.error ("KeyError: restart-file " ++ w) := by
  intro l
  induction l with
  | nil => intro _ w h; simp at h
  | cons x xs ih =>
    intro hbase w hfind
    by_cases hx : (lookupVar restart_file x).isNone = true
    · have hfc : List.find? (fun v => (lookupVar restart_file v).isNone)
          (x :: xs) = some x := List.find?_cons_of_pos xs hx
      rw [hfc] at hfind
      cases hfind
      obtain ⟨bv, hbv⟩ := Option.isSome_iff_exists.mp (hbase x (by simp))
      have hrx : lookupVar restart_file x = none := Option.isNone_iff_eq_none.mp hx
      simp [compareVarsList, compareOneVar, hbv, hrx]
    · have hfc : List.find? (fun v => (lookupVar restart_file v).isNone)
          (x :: xs)
          = List.find? (fun v => (lookupVar restart_file v).isNone) xs :=
        List.find?_cons_of_neg xs hx
      rw [hfc] at hfind
      obtain ⟨bv, hbv⟩ := Option.isSome_iff_exists.mp (hbase x (by simp))
      obtain ⟨rv, hrv⟩ := Option.isSome_iff_exists.mp
        (by simpa [Option.isNone_iff_eq_none, Option.isSome_iff_ne_none] using hx)
      have hrec := ih (fun y hy => hbase y (by simp [hy])) w hfind
      by_cases hdata : bv.data = rv.data
      · simp [compareVarsList, compareOneVar, hbv, hrv, hdata, hrec]
      · simp [compareVarsList, compareOneVar, hbv, hrv, hdata, hrec]

/-- Corrected form of claim C2: the comparison considers exactly the
variables selected from the base file's own mapping (those with a `time`
dimension); each of these is then looked up in the restart file with no
presence check, so the first selected variable missing from the restart
file — `w`, the first name for which the restart lookup is `None` — makes
the comparison raise `KeyError` for the restart file rather than being
skipped.  The sanity check only prints mapping differences; it does not
filter the comparison. -/
theorem c2_missing_var_raises (base_file restart_file : Dataset) (w : String)
    (tv latv lonv : NcVar)
    (ht : lookupVar base_file "time" = some tv)
    (hla : lookupVar base_file "lat" = some latv)
    (hlo : lookupVar base_file "lon" = some lonv)
    (hfind : (get_time_vars base_file).find?
        (fun v => (lookupVar restart_file v).isNone) = some w) :
    compare_variables (get_time_vars base_file) base_file restart_file
      = Except.error ("KeyError: restart-file " ++ w) := by
  simp only [compare_variables, ht, hla, hlo]
  exact compareVarsList_first_missing base_file restart_file tv.data latv.data
    lonv.data (get_time_vars base_file)
    (time_vars_lookup_isSome base_file) w hfind

/-- Counterexample for C2 as stated: `FOO` is a time-indexed variable of
the base file that is absent from the restart file's mapping, yet the
comparison does look it up in the restart file — the run raises
`KeyError` there instead of skipping the variable, so the comparison is
not restricted to variables present in both mappings. -/
theorem c2_counterexample :
    "FOO" ∈ get_time_vars c2Base
      ∧ lookupVar c2Rest "FOO" = none
      ∧ compare_variables (get_time_vars c2Base) c2Base c2Rest
        = Except.error ("KeyError: restart-file " ++ "FOO") := by
  exact ⟨by decide, by decide, rfl⟩

/-- Witness for the corrected C2 on the concrete missing-variable pair. -/
theorem c2_witness :
    compare_variables (get_time_vars c2Base) c2Base c2Rest
      = Except.error ("KeyError: restart-file " ++ "FOO") :=
  c2_missing_var_raises c2Base c2Rest "FOO"
    { dimensions := ["time"], data := nd1 [0] }
    { dimensions := ["lat"], data := nd1 [0] }
    { dimensions := ["lon"], data := nd1 [0] }
    (by decide) (by decide) (by decide) (by decide)

/-- Claim C8: when a changeset's target clone directory already exists,
the runner raises the fatal precondition error immediately after returning
to the start directory — the trace holds no clone (or any other) event for
that changeset, and the remaining changesets are not processed. -/
theorem c8_existing_dir_aborts (config : RunnerConfig) (dry_run : Bool)
    (cwd repo_dir : String) (isdir : String → Bool)
    (runOut : List String → String) (runOutS : String → String)
    (created : List String) (changeset : String) (rest : List String)
    (hdir : isdir (cwd ++ "/" ++ generate_id config.branch_base changeset)
      = true) :
    runner_loop config dry_run cwd repo_dir isdir runOut runOutS created
        (changeset :: rest)
      = ([Event.chdir cwd],
         some ("ERROR: temporary git repo dir already exists:\n    "
           ++ (cwd ++ "/" ++ generate_id config.branch_base changeset))) := by
  rw [runner_loop]
  rw [if_pos (Or.inl hdir)]

/-- Witness for C8: the concrete configuration with its clone target
already on disk. -/
theorem c8_witness :
    runner_loop cfg0 true "/w" ("/w" ++ "/" ++ cfg0.git_ref_repo)
        (fun _ => true) (fun _ => "") (fun _ => "") [] ["abc"]
      = ([Event.chdir "/w"],
         some ("ERROR: temporary git repo dir already exists:\n    "
           ++ ("/w" ++ "/" ++ generate_id cfg0.branch_base "abc"))) :=
  c8_existing_dir_aborts cfg0 true "/w" ("/w" ++ "/" ++ cfg0.git_ref_repo)
    (fun _ => true) (fun _ => "") (fun _ => "") [] "abc" [] rfl

theorem mem_ite_nil {α : Type} {c : Bool} {l : List α} {e : α}
    (h : e ∈ (if c = true then [] else l)) : c = false ∧ e ∈ l := by
  cases c <;> simp_all

theorem clone_ref_repo_shape (repo_dir temp_repo_dir : String)
    (dry_run : Bool) :
    ∀ e ∈ clone_ref_repo repo_dir temp_repo_dir dry_run,
      isPrintE e = true ∨ (dry_run = false ∧ isSubprocE e = true) := by
  intro e he
  rw [clone_ref_repo] at he
  simp only [List.mem_append] at he
  rcases he with h | h
  · simp at h; subst h; left; rfl
  · obtain ⟨hdry, h⟩ := mem_ite_nil h
    simp at h; subst h
    exact Or.inr ⟨hdry, rfl⟩

theorem bisect_test_shape (config : RunnerConfig) (case_id : String)
    (dry_run : Bool) (runOut : List String → String)
    (runOutS : String → String) :
    ∀ e ∈ (bisect_test config case_id dry_run runOut runOutS).1,
      isPrintE e = true
        ∨ (dry_run = false ∧ (isSubprocE e = true
            ∨ (∃ s, e = Event.logWrite s) ∨ (∃ p, e = Event.chdir p))) := by
  intro e he
  rw [bisect_test] at he
  split at he
  · simp at he
  · simp only [List.mem_append, List.mem_flatMap] at he
    rcases he with ((h | h) | h) | ⟨cmd, hcmd, h⟩
    · simp at h; subst h; left; rfl
    · obtain ⟨hdry, h⟩ := mem_ite_nil h
      simp at h
      rcases h with h | h <;> subst h
      · exact Or.inr ⟨hdry, Or.inl rfl⟩
      · exact Or.inr ⟨hdry, Or.inr (Or.inl ⟨_, rfl⟩)⟩
    · obtain ⟨hdry, h⟩ := mem_ite_nil h
      simp at h; subst h
      exact Or.inr ⟨hdry, Or.inr (Or.inr ⟨_, rfl⟩)⟩
    · rcases h with h | h
      · simp at h; subst h; left; rfl
      · obtain ⟨hdry, h⟩ := mem_ite_nil h
        simp at h
        rcases h with h | h <;> subst h
        · exact Or.inr ⟨hdry, Or.inl rfl⟩
        · exact Or.inr ⟨hdry, Or.inr (Or.inl ⟨_, rfl⟩)⟩

theorem runner_loop_shape (config : RunnerConfig) (dry_run : Bool)
    (cwd repo_dir : String) (isdir : String → Bool)
    (runOut : List String → String) (runOutS : String → String) :
    ∀ (ids created : List String),
      ∀ e ∈ (runner_loop config dry_run cwd repo_dir isdir runOut runOutS
               created ids).1,
        e = Event.chdir cwd ∨ isPrintE e = true
          ∨ (dry_run = false ∧ (isSubprocE e = true
              ∨ (∃ s, e = Event.logWrite s) ∨ (∃ p, e = Event.chdir p))) := by
  intro ids
  induction ids with
  | nil => intro created e he; simp [runner_loop] at he
  | cons c cs ih =>
    intro created e he
    rw [runner_loop] at he
    split at he
    · simp at he; subst he; exact Or.inl rfl
    · simp only [List.mem_append] at he
      rcases he with ((((((h | h) | h) | h) | h) | h) | h)
      · simp at h; subst h; exact Or.inl rfl
      · rcases clone_ref_repo_shape _ _ _ e h with h' | ⟨hdry, h'⟩
        · exact Or.inr (Or.inl h')
        · exact Or.inr (Or.inr ⟨hdry, Or.inl h'⟩)
      · obtain ⟨hdry, h⟩ := mem_ite_nil h
        simp at h; subst h
        exact Or.inr (Or.inr ⟨hdry, Or.inr (Or.inr ⟨_, rfl⟩)⟩)
      · rw [checkout_git_branch] at h
        obtain ⟨hdry, h⟩ := mem_ite_nil h
        simp at h; subst h
        exact Or.inr (Or.inr ⟨hdry, Or.inl rfl⟩)
      · obtain ⟨hdry, h⟩ := mem_ite_nil h
        simp at h; subst h
        exact Or.inr (Or.inr ⟨hdry, Or.inr (Or.inr ⟨_, rfl⟩)⟩)
      · rcases bisect_test_shape config _ dry_run runOut runOutS e h with
          h' | ⟨hdry, h'⟩
        · exact Or.inr (Or.inl h')
        · exact Or.inr (Or.inr ⟨hdry, h'⟩)
      · rcases hbt : (bisect_test config (generate_id config.branch_base c)
            dry_run runOut runOutS).2 with _ | err
        · rw [hbt] at h
          exact ih _ e h
        · rw [hbt] at h
          exact absurd h (List.not_mem_nil e)

theorem runner_loop_no_openLog (config : RunnerConfig) (dry_run : Bool)
    (cwd repo_dir : String) (isdir : String → Bool)
    (runOut : List String → String) (runOutS : String → String)
    (ids created : List String) :
    ∀ e ∈ (runner_loop config dry_run cwd repo_dir isdir runOut runOutS
             created ids).1, isOpenLogE e = false := by
  intro e he
  rcases runner_loop_shape config dry_run cwd repo_dir isdir runOut runOutS
    ids created e he with h | h | ⟨-, h | h | h⟩
  · subst h; rfl
  · cases e <;> simp_all [isPrintE, isOpenLogE]
  · cases e <;> simp_all [isSubprocE, isOpenLogE]
  · obtain ⟨s, rfl⟩ := h; rfl
  · obtain ⟨p, rfl⟩ := h; rfl

/-- Claim C10: before any changeset is processed — right after printing
the changeset list — the runner opens the run log `<branch_base>.log` in
mode `"w"` (creating it, truncating existing content), whatever the
dry-run flag; the changeset loop itself never opens the log again. -/
theorem c10_log_opened_first (config : RunnerConfig) (dry_run : Bool)
    (cwd : String) (isdir : String → Bool) (runOut : List String → String)
    (runOutS : String → String) :
    (runner_main config dry_run cwd isdir runOut runOutS).1
      = Event.printList (pySplit config.changeset_ids)
        :: Event.openLog (config.branch_base ++ ".log") "w"
        :: (runner_loop config dry_run cwd (cwd ++ "/" ++ config.git_ref_repo)
             isdir runOut runOutS [] (pySplit config.changeset_ids)).1
    ∧ ∀ e ∈ (runner_loop config dry_run cwd
               (cwd ++ "/" ++ config.git_ref_repo) isdir runOut runOutS []
               (pySplit config.changeset_ids)).1,
        isOpenLogE e = false :=
  ⟨rfl, runner_loop_no_openLog config dry_run cwd
    (cwd ++ "/" ++ config.git_ref_repo) isdir runOut runOutS
    (pySplit config.changeset_ids) []⟩

/-- Witness for C10: the concrete configuration, with dry-run set. -/
theorem c10_witness :
    (runner_main cfg0 true "/w" (fun _ => false) (fun _ => "")
        (fun _ => "")).1
      = Event.printList (pySplit cfg0.changeset_ids)
        :: Event.openLog (cfg0.branch_base ++ ".log") "w"
        :: (runner_loop cfg0 true "/w" ("/w" ++ "/" ++ cfg0.git_ref_repo)
             (fun _ => false) (fun _ => "") (fun _ => "") []
             (pySplit cfg0.changeset_ids)).1 :=
  (c10_log_opened_first cfg0 true "/w" (fun _ => false) (fun _ => "")
    (fun _ => "")).1

theorem printsOf_append (t u : List Event) :
    printsOf (t ++ u) = printsOf t ++ printsOf u := by
  simp [printsOf]

theorem printsOf_chdir (p : String) : printsOf [Event.chdir p] = [] := rfl

theorem printsOf_clone (repo_dir temp_repo_dir : String) (dry_run : Bool) :
    printsOf (clone_ref_repo repo_dir temp_repo_dir dry_run)
      = [Event.printStr
          ("Cloning git repo at : " ++ repo_dir ++ " to " ++ temp_repo_dir)] := by
  cases dry_run <;> simp [clone_ref_repo, printsOf, isPrintE]

theorem printsOf_checkout (changeset_id branch_name : String)
    (dry_run : Bool) :
    printsOf (checkout_git_branch changeset_id branch_name dry_run) = [] := by
  cases dry_run <;> simp [checkout_git_branch, printsOf, isPrintE]

theorem ldFilter_flatMap {α β : Type} (l : List α) (f : α → List β)
    (p : β → Bool) :
    (l.flatMap f).filter p = l.flatMap (fun a => (f a).filter p) := by
  induction l with
  | nil => rfl
  | cons x xs ih => simp [List.flatMap_cons, ih]

theorem printsOf_cons (e : Event) (t : List Event) :
    printsOf (e :: t) = if isPrintE e then e :: printsOf t else printsOf t := by
  simp [printsOf, List.filter_cons]

theorem bisect_test_prints (config : RunnerConfig) (case_id : String)
    (runOut runOut2 : List String → String)
    (runOutS runOutS2 : String → String) :
    printsOf (bisect_test config case_id true runOut runOutS).1
      = printsOf (bisect_test config case_id false runOut2 runOutS2).1
    ∧ (bisect_test config case_id true runOut runOutS).2
      = (bisect_test config case_id false runOut2 runOutS2).2 := by
  rw [bisect_test, bisect_test]
  split
  · exact ⟨rfl, rfl⟩
  · refine ⟨?_, rfl⟩
    simp [printsOf, ldFilter_flatMap, isPrintE]

theorem runner_loop_prints (config : RunnerConfig) (cwd repo_dir : String)
    (isdir : String → Bool) (runOut : List String → String)
    (runOutS : String → String) :
    ∀ (ids c1 c2 : List String),
      (∀ cs ∈ ids,
        isdir (cwd ++ "/" ++ generate_id config.branch_base cs) = false
          ∧ (cwd ++ "/" ++ generate_id config.branch_base cs) ∉ c1
          ∧ (cwd ++ "/" ++ generate_id config.branch_base cs) ∉ c2) →
      (ids.map
        (fun cs => cwd ++ "/" ++ generate_id config.branch_base cs)).Nodup →
      printsOf (runner_loop config true cwd repo_dir isdir runOut runOutS
          c1 ids).1
        = printsOf (runner_loop config false cwd repo_dir isdir runOut runOutS
            c2 ids).1 := by
  intro ids
  induction ids with
  | nil => intro c1 c2 _ _; rfl
  | cons c cs ih =>
    intro c1 c2 hfresh hnodup
    obtain ⟨hdir, hc1, hc2⟩ := hfresh c (by simp)
    rw [List.map_cons] at hnodup
    obtain ⟨hnotin, hnd⟩ := List.nodup_cons.mp hnodup
    have hnc1 : ¬(isdir (cwd ++ "/" ++ generate_id config.branch_base c) = true
        ∨ (cwd ++ "/" ++ generate_id config.branch_base c) ∈ c1) := by
      rintro (h | h)
      · simp [hdir] at h
      · exact hc1 h
    have hnc2 : ¬(isdir (cwd ++ "/" ++ generate_id config.branch_base c) = true
        ∨ (cwd ++ "/" ++ generate_id config.branch_base c) ∈ c2) := by
      rintro (h | h)
      · simp [hdir] at h
      · exact hc2 h
    have hfresh' : ∀ cs' ∈ cs,
        isdir (cwd ++ "/" ++ generate_id config.branch_base cs') = false
          ∧ (cwd ++ "/" ++ generate_id config.branch_base cs') ∉ c1
          ∧ (cwd ++ "/" ++ generate_id config.branch_base cs')
              ∉ ((cwd ++ "/" ++ generate_id config.branch_base c) :: c2) := by
      intro x hx
      refine ⟨(hfresh x (by simp [hx])).1, (hfresh x (by simp [hx])).2.1, ?_⟩
      intro hmem
      rcases List.mem_cons.mp hmem with heq | hmem2
      · exact hnotin (heq ▸ List.mem_map_of_mem _ hx)
      · exact (hfresh x (by simp [hx])).2.2 hmem2
    have hrec := ih c1 ((cwd ++ "/" ++ generate_id config.branch_base c) :: c2)
      hfresh' hnd
    have hb := bisect_test_prints config (generate_id config.branch_base c)
      runOut runOut runOutS runOutS
    rw [runner_loop, runner_loop, if_neg hnc1, if_neg hnc2]
    rcases hb2 : (bisect_test config (generate_id config.branch_base c) false
        runOut runOutS).2 with _ | err
    · have hb2t : (bisect_test config (generate_id config.branch_base c) true
          runOut runOutS).2 = none := by rw [hb.2, hb2]
      simp only [hb2, hb2t]
      simp [printsOf_append, printsOf_cons, printsOf_chdir, printsOf_clone,
        printsOf_checkout, isPrintE, hb.1, hrec]
    · have hb2t : (bisect_test config (generate_id config.branch_base c) true
          runOut runOutS).2 = some err := by rw [hb.2, hb2]
      simp only [hb2, hb2t]
      simp [printsOf_append, printsOf_cons, printsOf_chdir, printsOf_clone,
        printsOf_checkout, isPrintE, hb.1]

/-- Claim C7 (amended): with the dry-run flag set (and fresh, pairwise
distinct clone targets, so that no precondition error interleaves), the
runner performs no subprocess invocation at all and every `os.chdir` it
performs targets the start directory, so the working directory never
changes; and it prints exactly what the non-dry-run invocation prints —
the changeset list, the clone announcements, the case/test-creation
commands and the substituted follow-up commands.  (The checkout command is
printed in neither mode; see the counterexample.) -/
theorem c7_dry_run_prints_without_executing (config : RunnerConfig)
    (cwd : String) (isdir : String → Bool) (runOut : List String → String)
    (runOutS : String → String)
    (hfresh : ∀ cs ∈ pySplit config.changeset_ids,
      isdir (cwd ++ "/" ++ generate_id config.branch_base cs) = false)
    (hnodup : ((pySplit config.changeset_ids).map
      (fun cs => cwd ++ "/" ++ generate_id config.branch_base cs)).Nodup) :
    (∀ e ∈ (runner_main config true cwd isdir runOut runOutS).1,
      isSubprocE e = false ∧ ∀ p, e = Event.chdir p → p = cwd)
    ∧ printsOf (runner_main config true cwd isdir runOut runOutS).1
      = printsOf (runner_main config false cwd isdir runOut runOutS).1 := by
  constructor
  · intro e he
    simp only [runner_main, List.mem_append, List.mem_cons,
      List.not_mem_nil, or_false] at he
    rcases he with (h | h) | h
    · subst h; exact ⟨rfl, fun p hp => by cases hp⟩
    · subst h; exact ⟨rfl, fun p hp => by cases hp⟩
    · rcases runner_loop_shape config true cwd
          (cwd ++ "/" ++ config.git_ref_repo) isdir runOut runOutS
          (pySplit config.changeset_ids) [] e h with h' | h' | ⟨hfalse, -⟩
      · subst h'
        exact ⟨rfl, fun p hp => by injection hp with hh; exact hh.symm⟩
      · refine ⟨by cases e <;> simp_all [isPrintE, isSubprocE], ?_⟩
        intro p hp
        subst hp
        simp [isPrintE] at h'
      · exact absurd hfalse (by simp)
  · have hl := runner_loop_prints config cwd
      (cwd ++ "/" ++ config.git_ref_repo) isdir runOut runOutS
      (pySplit config.changeset_ids) [] []
      (fun cs hcs => ⟨hfresh cs hcs, by simp, by simp⟩) hnodup
    simp only [runner_main]
    rw [printsOf_append, printsOf_append, hl]

/-- Counterexample for C7 as stated: without dry-run the runner executes
the checkout command `git checkout -b bb-abc abc`, but the dry-run trace
prints that command nowhere (neither as a list nor as a string) —
`checkout_git_branch` contains no `print` — so dry-run does not print the
exact command sequence that would be run. -/
theorem c7_counterexample :
    Event.subprocList ["git", "checkout", "-b", "bb-abc", "abc"]
        ∈ (runner_main cfg0 false "/w" (fun _ => false) (fun _ => "")
            (fun _ => "")).1
      ∧ Event.printList ["git", "checkout", "-b", "bb-abc", "abc"]
          ∉ (runner_main cfg0 true "/w" (fun _ => false) (fun _ => "")
              (fun _ => "")).1
      ∧ Event.printStr "git checkout -b bb-abc abc"
          ∉ (runner_main cfg0 true "/w" (fun _ => false) (fun _ => "")
              (fun _ => "")).1 := by
  refine ⟨?_, ?_, ?_⟩ <;> decide

/-- Witness for the amended C7 on the concrete configuration: the dry-run
trace prints exactly what the non-dry-run trace prints. -/
theorem c7_witness :
    printsOf (runner_main cfg0 true "/w" (fun _ => false) (fun _ => "")
        (fun _ => "")).1
      = printsOf (runner_main cfg0 false "/w" (fun _ => false) (fun _ => "")
          (fun _ => "")).1 :=
  (c7_dry_run_prints_without_executing cfg0 "/w" (fun _ => false)
    (fun _ => "") (fun _ => "") (by decide) (by decide)).2
